import Mathlib

/-!
Verification of the web-proxy server (`src/server.js`) against its
natural-language specification.

The JavaScript source is shallowly embedded below.  JS strings are modelled
as Lean `String` (a list of characters); the JS string operations used by
the source (`startsWith`, `endsWith`, `slice(1)`, `toLowerCase`, `===`) are
modelled as executable functions on the underlying character lists.  The
process-wide configuration (`ALLOWLIST`, `BLOCKLIST`, `MAX_BODY_MB`,
`ENABLE_REWRITE`) is passed explicitly as parameters.  The external
libraries the server delegates to (the WHATWG `URL` parser/resolver of
Node, `undici`'s fetch, Express's query parsing) are external collaborators
per the specification; where a claim depends on them they appear either as
abstract function parameters or as definitions explicitly modelled from
the spec.
-/

/-! ## String-operation model (JS string primitives used in `server.js`) -/

/-- JS `s.startsWith(p)`. -/
def strStartsWith (s p : String) : Bool :=
  p.data.isPrefixOf s.data

/-- JS `s.endsWith(p)`. -/
def strEndsWith (s p : String) : Bool :=
  p.data.isSuffixOf s.data

/-- JS `s.slice(n)` for a non-negative `n`: drop the first `n` characters. -/
def strSlice (s : String) (n : Nat) : String :=
  ⟨s.data.drop n⟩

/-- JS `s.toLowerCase()` (ASCII case folding, which is all the source uses:
header names are ASCII). -/
def strToLower (s : String) : String :=
  ⟨s.data.map Char.toLower⟩

/-- Case-insensitive equality of two strings, as used by Node for header
names (`setHeader`/`get` key comparison). -/
def lowerEq (a b : String) : Bool :=
  decide (strToLower a = strToLower b)

/-! ## Policy Evaluator (`matchesList`, `isAllowed` — src/server.js:34-49) -/

/-- The body of the `list.some(rule => ...)` callback in `matchesList`
(src/server.js:36-41): a wildcard rule `*.suffix` matches when the host
ends with `rule.slice(1)` (the literal text after the `*`, i.e. `.suffix`);
any other rule matches by exact equality. -/
def matchesRule (host rule : String) : Bool :=
  if strStartsWith rule "*." then strEndsWith host (strSlice rule 1)
  else decide (host = rule)

/-- The function `matchesList(host, list)` (src/server.js:34-42).  `if (!host) return
false` — the only falsy JS string is the empty string. -/
def matchesList (host : String) (list : List String) : Bool :=
  if host = "" then false
  else list.any (matchesRule host)

/-- The function `isAllowed(urlObj)` (src/server.js:44-49), parameterised by the two
process-wide rule lists (`BLOCKLIST`, `ALLOWLIST`) and applied to the URL's
hostname.  `BLOCKLIST.length && ...` tests list non-emptiness. -/
def isAllowed (blocklist allowlist : List String) (host : String) : Bool :=
  if blocklist ≠ [] ∧ matchesList host blocklist = true then false
  else if allowlist ≠ [] ∧ matchesList host allowlist = false then false
  else true

theorem matchesList_nil (host : String) : matchesList host [] = false := by
  simp [matchesList]

/-! ## URL Codec (`encodeURIComponent` / query-parameter decode) -/

/-- The characters `encodeURIComponent` leaves unescaped:
`A-Z a-z 0-9 - _ . ! ~ * ' ( )`. -/
def isUnreservedChar (c : Char) : Bool :=
  (('A' ≤ c && c ≤ 'Z') || ('a' ≤ c && c ≤ 'z') || ('0' ≤ c && c ≤ '9')
    || c == '-' || c == '_' || c == '.' || c == '!' || c == '~' || c == '*'
    || c == Char.ofNat 39 || c == '(' || c == ')')

/-- Uppercase hex digit for `n < 16` (the case `encodeURIComponent`
emits). -/
def hexDigitChar (n : Nat) : Char :=
  if n < 10 then Char.ofNat (48 + n) else Char.ofNat (55 + n)

/-- Numeric value of a hex digit character. -/
def hexVal (c : Char) : Nat :=
  if '0' ≤ c && c ≤ '9' then c.toNat - 48
  else if 'A' ≤ c && c ≤ 'F' then c.toNat - 55
  else if 'a' ≤ c && c ≤ 'f' then c.toNat - 87
  else 0

def isHexDigitChar (c : Char) : Bool :=
  ('0' ≤ c && c ≤ '9') || ('A' ≤ c && c ≤ 'F') || ('a' ≤ c && c ≤ 'f')

/-- One character of `encodeURIComponent` output.  Serialized WHATWG URLs
are ASCII, so the UTF-8 multi-byte escaping of non-ASCII code points never
arises for the strings the server encodes and is not modelled. -/
def encodeCharCL (c : Char) : List Char :=
  if isUnreservedChar c then [c]
  else '%' :: hexDigitChar (c.toNat / 16) :: [hexDigitChar (c.toNat % 16)]

/-- JS `encodeURIComponent` over a character list. -/
def encodeCL : List Char → List Char
  | [] => []
  | c :: cs => encodeCharCL c ++ encodeCL cs

/-- Modelled from the spec: the decode side of the URL codec — Express's
query parsing of `req.query.url`, an external library — percent-decodes the
`url` query parameter (spec §4.2 `decode`).  Malformed escapes are passed
through; the round-trip theorems only exercise well-formed output of
`encodeCL`. -/
def percentDecodeCL : List Char → List Char
  | [] => []
  | c :: rest =>
    if c = '%' then
      match rest with
      | h1 :: h2 :: rest2 =>
        if isHexDigitChar h1 && isHexDigitChar h2 then
          Char.ofNat (16 * hexVal h1 + hexVal h2) :: percentDecodeCL rest2
        else c :: h1 :: h2 :: percentDecodeCL rest2
      | [h1] => [c, h1]
      | [] => [c]
    else c :: percentDecodeCL rest

/-- The function `toProxyUrl(targetUrl)` (src/server.js:59-62): builds
`/proxy?url=<encodeURIComponent(url)>`.  The source first re-parses the
argument with `new URL(...).toString()`; on the already-serialized absolute
URLs the server passes in, that re-serialization is the identity (a
property of the external URL library, which the spec assumes). -/
def toProxyUrl (u : String) : String :=
  "/proxy?url=" ++ ⟨encodeCL u.data⟩

/-- Strip a literal prefix from a character list, or fail. -/
def dropPrefixCL : List Char → List Char → Option (List Char)
  | [], s => some s
  | _ :: _, [] => none
  | p :: ps, c :: cs => if p = c then dropPrefixCL ps cs else none

/-- Modelled from the spec: extraction of the `url` query parameter from a
ProxyURL string (spec §4.2 `decode`; in the source this is Express's
routing plus query parsing, an external library): strip the
`/proxy?url=` prefix and percent-decode the remainder.  (`encodeCL`
escapes `&` and `=`, so on ProxyURLs built by `toProxyUrl` the remainder
is exactly the encoded parameter.) -/
def extractProxyParam (s : String) : Option String :=
  (dropPrefixCL "/proxy?url=".data s.data).map (fun l => String.mk (percentDecodeCL l))

/-- All characters of the string are ASCII.  Serialized absolute
http/https URLs are ASCII (the WHATWG serializer punycodes hosts and
percent-escapes non-ASCII elsewhere). -/
def asciiStr (s : String) : Bool :=
  s.data.all (fun c => decide (c.toNat < 128))

/-! ## Response header relay (src/server.js:127-144) -/

/-- The hop-by-hop header names dropped by the relay loop
(src/server.js:127-130). -/
def hopByHopHeaders : List String :=
  ["connection", "keep-alive", "proxy-authenticate", "proxy-authorization",
   "te", "trailers", "transfer-encoding", "upgrade"]

/-- The framing-control header names dropped by the relay loop
(src/server.js:135). -/
def framingHeaders : List String :=
  ["x-frame-options", "content-security-policy",
   "content-security-policy-report-only"]

/-- Node's `res.setHeader(k, v)`: header names are keyed case-insensitively;
an existing entry is replaced in place (taking the new name's case), a new
one is appended. -/
def setHeader : List (String × String) → String → String → List (String × String)
  | [], k, v => [(k, v)]
  | p :: rest, k, v =>
    if lowerEq p.1 k then (k, v) :: rest else p :: setHeader rest k v

/-- Case-insensitive header lookup (`upstream.headers.get(name)` of fetch,
and what the client observes of the response headers). -/
def getHeaderCI (hs : List (String × String)) (k : String) : Option String :=
  (hs.find? (fun p => lowerEq p.1 k)).map (fun p => p.2)

/-- The header relay loop (src/server.js:131-137): skip hop-by-hop names,
skip framing-control names, `res.setHeader(k, v)` for the rest, in
upstream order. -/
def relayLoopAux : List (String × String) → List (String × String) → List (String × String)
  | acc, [] => acc
  | acc, kv :: rest =>
    if hopByHopHeaders.contains (strToLower kv.1) then relayLoopAux acc rest
    else if framingHeaders.contains (strToLower kv.1) then relayLoopAux acc rest
    else relayLoopAux (setHeader acc kv.1 kv.2) rest

def relayLoop (upstreamHeaders : List (String × String)) : List (String × String) :=
  relayLoopAux [] upstreamHeaders

/-- A header name the relay loop drops. -/
def dropHeaderName (k : String) : Bool :=
  hopByHopHeaders.contains (strToLower k) || framingHeaders.contains (strToLower k)

/-- The response headers produced by the `/proxy` handler for the client:
the relay loop (src/server.js:127-137) followed by the `Location` rewrite
block (src/server.js:139-144).  `resolve` abstracts the external
`new URL(href, base)` resolution inside `absoluteUrl`
(src/server.js:51-57), `none` standing for a thrown parse error
(`absoluteUrl` returns `null`).  `if (location)` is false for a missing or
empty value. -/
def proxyResponseHeaders (resolve : String → String → Option String)
    (targetUrl : String) (upstreamHeaders : List (String × String)) :
    List (String × String) :=
  let relayed := relayLoop upstreamHeaders
  match getHeaderCI upstreamHeaders "location" with
  | none => relayed
  | some loc =>
    if loc = "" then relayed
    else
      match resolve targetUrl loc with
      | none => relayed
      | some abs => setHeader relayed "Location" (toProxyUrl abs)

/-! ## The `/proxy` handler's decision pipeline (src/server.js:65-121) -/

/-- The fields of a parsed WHATWG `URL` object the server reads.  Parsing
itself (`new URL(...)`) is the external URL library; handlers take it as an
abstract function returning `none` where the constructor throws. -/
structure URLRec where
  protocol : String
  hostname : String
  origin : String
  deriving DecidableEq

/-- Outcome of the `/proxy` handler up to the upstream fetch: each error
constructor is one of the early `return res.status(...)` exits, and
`fetchIssued` is reaching the `fetch` call (src/server.js:113). -/
inductive ProxyOutcome where
  | missingUrl
  | invalidUrl
  | unsupportedScheme
  | blocked
  | payloadTooLarge
  | fetchIssued (u : URLRec)
  deriving DecidableEq

/-- The `/proxy` handler's control flow from entry to the upstream fetch
(src/server.js:65-121): missing/empty `?url=` → 400; unparseable URL → 400;
scheme other than http/https → 400; `isAllowed` failure → 403; then, for
methods other than GET/HEAD, the inbound body is read incrementally and
the handler answers 413 as soon as the cumulative size exceeds
`MAX_BODY_MB * 1024 * 1024` bytes (`bodySize` is the total inbound body
size; some prefix exceeds the bound iff the total does); otherwise the
upstream fetch is issued. -/
def proxyEarly (blocklist allowlist : List String) (maxBodyMB : Nat)
    (parse : String → Option URLRec) (urlParam : Option String)
    (method : String) (bodySize : Nat) : ProxyOutcome :=
  match urlParam with
  | none => .missingUrl
  | some target =>
    if target = "" then .missingUrl
    else
      match parse target with
      | none => .invalidUrl
      | some u =>
        if ¬ (u.protocol = "http:" ∨ u.protocol = "https:") then .unsupportedScheme
        else if isAllowed blocklist allowlist u.hostname = false then .blocked
        else if method ≠ "GET" ∧ method ≠ "HEAD" ∧ maxBodyMB * 1024 * 1024 < bodySize then
          .payloadTooLarge
        else .fetchIssued u

/-! ## Response Classifier (src/server.js:146-153) -/

inductive RespPath where
  | streaming
  | rewrite
  deriving DecidableEq

/-- The assignment `contentType = upstream.headers.get('content-type') || ''`
(src/server.js:146). -/
def contentTypeOf (h : Option String) : String := h.getD ""

/-- The streaming/rewrite branch decision (src/server.js:147-153):
`isHtml = contentType.startsWith('text/html')`; stream when
`!isHtml || !ENABLE_REWRITE`. -/
def classifyResponse (enableRewrite : Bool) (contentType : String) : RespPath :=
  if !(strStartsWith contentType "text/html") || !enableRewrite then .streaming
  else .rewrite

/-- The body delivered to the client: the Streaming Path pipes the upstream
body through unmodified (src/server.js:152), the Rewrite Path applies the
HTML rewrite (src/server.js:156-216, abstracted as `rewriteFn`). -/
def respondBody (enableRewrite : Bool) (contentType : String)
    (rewriteFn : String → String) (body : String) : String :=
  match classifyResponse enableRewrite contentType with
  | .streaming => body
  | .rewrite => rewriteFn body

/-! ## HTML Rewrite Engine attribute loops (src/server.js:163-185) -/

/-- cheerio's `$(el).attr(name)`: the element's attribute value, if
present. -/
def getAttr (attrs : List (String × String)) (name : String) : Option String :=
  (attrs.find? (fun p => decide (p.1 = name))).map (fun p => p.2)

/-- cheerio's `$(el).attr(name, v)`: replace the attribute's value. -/
def setAttr (attrs : List (String × String)) (name v : String) :
    List (String × String) :=
  attrs.map (fun p => if p.1 = name then (p.1, v) else p)

/-- The anchor rewrite loop body (src/server.js:163-167), for one element
of neighbourhood `a[href]`: resolve the `href` against the target URL; on
success replace it with the ProxyURL, on failure (`absoluteUrl` returned
`null`) leave the element untouched. -/
def rewriteAnchorAttrs (resolve : String → String → Option String)
    (targetUrl : String) (attrs : List (String × String)) :
    List (String × String) :=
  match getAttr attrs "href" with
  | none => attrs
  | some href =>
    match resolve targetUrl href with
    | none => attrs
    | some abs => setAttr attrs "href" (toProxyUrl abs)

/-- The resource rewrite loop body (src/server.js:170-177), for one element
and one of the attribute names `src`/`href`: `if (!val) return;` skips a
missing or empty value; otherwise resolve and rewrite on success only. -/
def rewriteResourceAttr (resolve : String → String → Option String)
    (targetUrl : String) (attrs : List (String × String))
    (attrName : String) : List (String × String) :=
  match getAttr attrs attrName with
  | none => attrs
  | some val =>
    if val = "" then attrs
    else
      match resolve targetUrl val with
      | none => attrs
      | some abs => setAttr attrs attrName (toProxyUrl abs)

/-- The form rewrite loop body (src/server.js:180-185), for one element of
neighbourhood `form[action]`. -/
def rewriteFormAttrs (resolve : String → String → Option String)
    (targetUrl : String) (attrs : List (String × String)) :
    List (String × String) :=
  match getAttr attrs "action" with
  | none => attrs
  | some action =>
    match resolve targetUrl action with
    | none => attrs
    | some abs => setAttr attrs "action" (toProxyUrl abs)

/-! ## WebSocket upgrade handler (src/server.js:228-243) -/

inductive UpgradeOutcome where
  | destroyed
  | tunneled (origin : String)
  deriving DecidableEq

/-- The `server.on('upgrade')` handler (src/server.js:228-243): destroy the
socket unless the path is `/ws`, a non-empty `url` parameter is present
and parses (`new URL` throwing lands in the `catch`), and `isAllowed`
accepts the hostname; on success tunnel to `targetUrl.origin`.  No check
of the URL's scheme is performed. -/
def upgradeDecision (blocklist allowlist : List String)
    (parse : String → Option URLRec) (pathname : String)
    (urlParam : Option String) : UpgradeOutcome :=
  if pathname ≠ "/ws" then .destroyed
  else
    match urlParam with
    | none => .destroyed
    | some target =>
      if target = "" then .destroyed
      else
        match parse target with
        | none => .destroyed
        | some u =>
          if isAllowed blocklist allowlist u.hostname = false then .destroyed
          else .tunneled u.origin

/-- Modelled from the spec: one concrete point of the external WHATWG URL
resolver's behaviour (spec §4.2 `resolve`): `new URL("http://[", base)`
throws even with a valid base (an unclosed IPv6 host bracket is a hard
parse error), so `absoluteUrl` (src/server.js:51-57) returns `null` there;
on an already-absolute well-formed URL the resolver returns it unchanged.
Only those two behaviours are used by witnesses and counterexamples. -/
def resolveModel : String → String → Option String :=
  fun _ href => if href = "http://[" then none else some href

/-! ## Helper lemmas -/

theorem dropPrefixCL_self (p : List Char) : ∀ s, dropPrefixCL p (p ++ s) = some s := by
  induction p with
  | nil => intro s; rfl
  | cons a ps ih => intro s; simp [dropPrefixCL, ih]

theorem hexDigitChar_ok : ∀ m : Nat, m < 16 →
    isHexDigitChar (hexDigitChar m) = true ∧ hexVal (hexDigitChar m) = m := by
  decide

theorem percent_not_unreserved : isUnreservedChar '%' = false := by decide

theorem percentDecodeCL_cons_ne (c : Char) (hc : c ≠ '%') (xs : List Char) :
    percentDecodeCL (c :: xs) = c :: percentDecodeCL xs := by
  cases xs with
  | nil => simp [percentDecodeCL, hc]
  | cons a t =>
    cases t with
    | nil => simp [percentDecodeCL, hc]
    | cons b t2 => simp [percentDecodeCL, hc]

theorem percentDecodeCL_cons_esc (h1 h2 : Char) (rest : List Char)
    (hh1 : isHexDigitChar h1 = true) (hh2 : isHexDigitChar h2 = true) :
    percentDecodeCL ('%' :: h1 :: h2 :: rest) =
      Char.ofNat (16 * hexVal h1 + hexVal h2) :: percentDecodeCL rest := by
  simp [percentDecodeCL, hh1, hh2]

theorem percentDecode_encode (l : List Char) (h : ∀ c ∈ l, c.toNat < 128) :
    percentDecodeCL (encodeCL l) = l := by
  induction l with
  | nil => rfl
  | cons c cs ih =>
    have hc : c.toNat < 128 := h c (by simp)
    have hcs : ∀ x ∈ cs, x.toNat < 128 := fun x hx => h x (by simp [hx])
    rw [encodeCL]
    by_cases hu : isUnreservedChar c = true
    · rw [encodeCharCL, if_pos hu, List.singleton_append]
      have hne : c ≠ '%' := by
        rintro rfl
        rw [percent_not_unreserved] at hu
        exact Bool.false_ne_true hu
      rw [percentDecodeCL_cons_ne c hne, ih hcs]
    · rw [encodeCharCL, if_neg hu]
      have hd1 : c.toNat / 16 < 16 := by
        have h256 : c.toNat < 16 * 16 := lt_trans hc (by norm_num)
        exact Nat.div_lt_of_lt_mul h256
      have hd2 : c.toNat % 16 < 16 := Nat.mod_lt _ (by norm_num)
      obtain ⟨hhex1, hval1⟩ := hexDigitChar_ok _ hd1
      obtain ⟨hhex2, hval2⟩ := hexDigitChar_ok _ hd2
      simp only [List.cons_append, List.nil_append]
      rw [percentDecodeCL_cons_esc _ _ _ hhex1 hhex2]
      rw [hval1, hval2, Nat.div_add_mod, Char.ofNat_toNat, ih hcs]

theorem asciiStr_mem (s : String) (h : asciiStr s = true) :
    ∀ c ∈ s.data, c.toNat < 128 := by
  intro c hc
  have := List.all_eq_true.mp h c hc
  simpa using this

/-! ## Claim C1 — policy decision -/

/-- Claim C1: for every hostname, the policy decision is: reject if the
host matches any block-rule; otherwise, if the allow-rule list is
non-empty and the host matches none of its rules, reject; otherwise
accept.  In particular a host matching a block-rule is rejected even if it
also matches an allow-rule, and with an empty allow-rule list every
non-blocked host is accepted. -/
theorem allowPolicy_decision_spec (bl al : List String) (h : String) :
    isAllowed bl al h = (!(matchesList h bl) && (al.isEmpty || matchesList h al)) ∧
    (matchesList h bl = true → isAllowed bl al h = false) ∧
    (al = [] → matchesList h bl = false → isAllowed bl al h = true) := by
  refine ⟨?_, ?_, ?_⟩
  · by_cases hbl : matchesList h bl = true
    · have hbl' : bl ≠ [] := by
        rintro rfl
        rw [matchesList_nil] at hbl
        exact Bool.false_ne_true hbl
      simp [isAllowed, hbl, hbl']
    · have hbl0 : matchesList h bl = false := by
        simpa using hbl
      by_cases hal : al = []
      · subst hal
        simp [isAllowed, matchesList_nil, hbl0]
      · by_cases hm : matchesList h al = true
        · simp [isAllowed, hbl0, hm, hal]
        · have hm0 : matchesList h al = false := by simpa using hm
          simp [isAllowed, hbl0, hm0, hal, List.isEmpty_iff]
  · intro hm
    have hbl' : bl ≠ [] := by
      rintro rfl
      rw [matchesList_nil] at hm
      exact Bool.false_ne_true hm
    simp [isAllowed, hm, hbl']
  · rintro rfl hm
    simp [isAllowed, hm, matchesList_nil]

theorem allowPolicy_decision_spec_witness :
    isAllowed ["bad.com"] ["bad.com"] "bad.com" = false ∧
    isAllowed ["bad.com"] [] "ok.com" = true :=
  ⟨(allowPolicy_decision_spec ["bad.com"] ["bad.com"] "bad.com").2.1 (by decide),
   (allowPolicy_decision_spec ["bad.com"] [] "ok.com").2.2 rfl (by decide)⟩

/-! ## Claim C2 — rule matching -/

/-- Claim C2: a (non-empty) hostname `h` matches a rule `r` exactly when
either `r` does not start with `*.` and `h` equals `r`, or `r` has the
form `*.suffix` and `h` ends with the literal text after the `*`
(including the leading dot).  In particular `*.example.com` matches
`sub.example.com` but matches neither `example.com` nor
`evilexample.com`. -/
theorem matchesList_rule_spec :
    (∀ h r : String, h ≠ "" →
      (matchesList h [r] = true ↔
        ((strStartsWith r "*." = false ∧ h = r) ∨
         (strStartsWith r "*." = true ∧ strEndsWith h (strSlice r 1) = true)))) ∧
    matchesList "sub.example.com" ["*.example.com"] = true ∧
    matchesList "example.com" ["*.example.com"] = false ∧
    matchesList "evilexample.com" ["*.example.com"] = false := by
  refine ⟨?_, by decide, by decide, by decide⟩
  intro h r hne
  simp only [matchesList, if_neg hne, List.any_cons, List.any_nil,
    Bool.or_false, matchesRule]
  by_cases hw : strStartsWith r "*." = true
  · simp [hw]
  · have hw0 : strStartsWith r "*." = false := by simpa using hw
    simp [hw0]

theorem matchesList_rule_spec_witness :
    matchesList "a.b.c" ["*.b.c"] = true :=
  (matchesList_rule_spec.1 "a.b.c" "*.b.c" (by decide)).mpr
    (Or.inr ⟨by decide, by decide⟩)

/-! ## Claim C3 — ProxyURL encode/decode round-trip -/

/-- Claim C3: for every absolute http/https URL string `u` (serialized
URLs are ASCII), extracting and percent-decoding the `url` query
parameter of the `/proxy?url=...` string built by `toProxyUrl` yields
exactly `u`, including query strings containing reserved characters. -/
theorem proxyUrl_roundTrip (u : String) (h : asciiStr u = true) :
    extractProxyParam (toProxyUrl u) = some u := by
  obtain ⟨d⟩ := u
  simp only [extractProxyParam, toProxyUrl, String.data_append]
  rw [dropPrefixCL_self]
  simp only [Option.map_some']
  rw [percentDecode_encode _ (asciiStr_mem ⟨d⟩ h)]

theorem proxyUrl_roundTrip_witness :
    asciiStr "http://example.com/a?b=c&d=e%26f" = true ∧
    extractProxyParam (toProxyUrl "http://example.com/a?b=c&d=e%26f") =
      some "http://example.com/a?b=c&d=e%26f" :=
  ⟨by decide, proxyUrl_roundTrip _ (by decide)⟩

/-! ## Header relay helper lemmas -/

theorem lowerEq_iff (a b : String) :
    lowerEq a b = true ↔ strToLower a = strToLower b := by
  simp [lowerEq]

theorem lowerEq_false_iff (a b : String) :
    lowerEq a b = false ↔ strToLower a ≠ strToLower b := by
  simp [lowerEq]

theorem dropHeaderName_congr (a b : String) (h : strToLower a = strToLower b) :
    dropHeaderName a = dropHeaderName b := by
  unfold dropHeaderName
  rw [h]

theorem setHeader_append (hs : List (String × String)) (k v : String)
    (h : ∀ p ∈ hs, lowerEq p.1 k = false) :
    setHeader hs k v = hs ++ [(k, v)] := by
  induction hs with
  | nil => rfl
  | cons p rest ih =>
    have hp : lowerEq p.1 k = false := h p (by simp)
    simp only [setHeader, hp]
    rw [if_neg (by simp), List.cons_append,
      ih (fun q hq => h q (by simp [hq]))]

theorem getHeaderCI_setHeader_self (hs : List (String × String)) (k n v : String)
    (h : lowerEq k n = true) :
    getHeaderCI (setHeader hs k v) n = some v := by
  induction hs with
  | nil => simp [setHeader, getHeaderCI, List.find?_cons_of_pos, h]
  | cons p rest ih =>
    by_cases hpk : lowerEq p.1 k = true
    · simp [setHeader, getHeaderCI, hpk, List.find?_cons_of_pos, h]
    · have hpk0 : lowerEq p.1 k = false := by simpa using hpk
      simp only [setHeader, hpk0]
      rw [if_neg (by simp)]
      have hpn : lowerEq p.1 n = false := by
        rw [lowerEq_false_iff]
        intro hcontra
        rw [lowerEq_false_iff] at hpk0
        rw [lowerEq_iff] at h
        exact hpk0 (hcontra.trans h.symm)
      simpa [getHeaderCI, List.find?_cons_of_neg, hpn] using ih

theorem getHeaderCI_setHeader_ne (hs : List (String × String)) (k n v : String)
    (h : lowerEq k n = false) :
    getHeaderCI (setHeader hs k v) n = getHeaderCI hs n := by
  induction hs with
  | nil => simp [setHeader, getHeaderCI, List.find?_cons_of_neg, h]
  | cons p rest ih =>
    by_cases hpk : lowerEq p.1 k = true
    · have hpn : lowerEq p.1 n = false := by
        rw [lowerEq_false_iff]
        rw [lowerEq_iff] at hpk
        rw [lowerEq_false_iff] at h
        intro hcontra
        exact h (hpk.symm.trans hcontra)
      simp [setHeader, getHeaderCI, hpk, List.find?_cons_of_neg, h, hpn]
    · have hpk0 : lowerEq p.1 k = false := by simpa using hpk
      simp only [setHeader, hpk0]
      rw [if_neg (by simp)]
      by_cases hpn : lowerEq p.1 n = true
      · simp [getHeaderCI, List.find?_cons_of_pos, hpn]
      · have hpn0 : lowerEq p.1 n = false := by simpa using hpn
        simpa [getHeaderCI, List.find?_cons_of_neg, hpn0] using ih

theorem bool_ne_true {b : Bool} (h : b = false) : ¬ b = true := by
  simp [h]

theorem relayLoopAux_eq (up : List (String × String)) :
    ∀ acc : List (String × String),
      (up.map (fun kv => strToLower kv.1)).Nodup →
      (∀ p ∈ acc, ∀ q ∈ up, lowerEq p.1 q.1 = false) →
      relayLoopAux acc up = acc ++ up.filter (fun kv => !dropHeaderName kv.1) := by
  induction up with
  | nil => intro acc _ _; simp [relayLoopAux]
  | cons kv rest ih =>
    intro acc hnodup hdisj
    have hnodup' : (rest.map (fun q => strToLower q.1)).Nodup :=
      (List.nodup_cons.mp hnodup).2
    have hnotin : strToLower kv.1 ∉ rest.map (fun q => strToLower q.1) :=
      (List.nodup_cons.mp hnodup).1
    by_cases hhop : hopByHopHeaders.contains (strToLower kv.1) = true
    · have hdrop : dropHeaderName kv.1 = true := by
        rw [dropHeaderName, hhop, Bool.true_or]
      simp only [relayLoopAux]
      rw [if_pos hhop,
        ih acc hnodup' (fun p hp q hq => hdisj p hp q (by simp [hq])),
        List.filter_cons, hdrop]
      rfl
    · have hhop0 : hopByHopHeaders.contains (strToLower kv.1) = false := by
        simpa using hhop
      by_cases hfr : framingHeaders.contains (strToLower kv.1) = true
      · have hdrop : dropHeaderName kv.1 = true := by
          rw [dropHeaderName, hhop0, hfr, Bool.false_or]
        simp only [relayLoopAux]
        rw [if_neg (bool_ne_true hhop0), if_pos hfr,
          ih acc hnodup' (fun p hp q hq => hdisj p hp q (by simp [hq])),
          List.filter_cons, hdrop]
        rfl
      · have hfr0 : framingHeaders.contains (strToLower kv.1) = false := by
          simpa using hfr
        have hdrop : dropHeaderName kv.1 = false := by
          rw [dropHeaderName, hhop0, hfr0, Bool.false_or]
        have hset : setHeader acc kv.1 kv.2 = acc ++ [kv] := by
          rw [setHeader_append acc kv.1 kv.2
            (fun p hp => hdisj p hp kv (by simp))]
        have hdisj' : ∀ p ∈ acc ++ [kv], ∀ q ∈ rest, lowerEq p.1 q.1 = false := by
          intro p hp q hq
          rcases List.mem_append.mp hp with hp1 | hp2
          · exact hdisj p hp1 q (by simp [hq])
          · have hpkv : p = kv := by simpa using hp2
            subst hpkv
            rw [lowerEq_false_iff]
            intro hcontra
            exact hnotin (by
              rw [hcontra]
              exact List.mem_map.mpr ⟨q, hq, rfl⟩)
        simp only [relayLoopAux]
        rw [if_neg (bool_ne_true hhop0), if_neg (bool_ne_true hfr0), hset,
          ih (acc ++ [kv]) hnodup' hdisj',
          List.filter_cons, hdrop]
        simp

theorem relayLoop_eq_filter (up : List (String × String))
    (hnodup : (up.map (fun kv => strToLower kv.1)).Nodup) :
    relayLoop up = up.filter (fun kv => !dropHeaderName kv.1) := by
  rw [relayLoop, relayLoopAux_eq up [] hnodup (by simp)]
  simp

theorem getHeaderCI_filter_keep (up : List (String × String)) (n : String)
    (hn : dropHeaderName n = false) :
    getHeaderCI (up.filter (fun kv => !dropHeaderName kv.1)) n = getHeaderCI up n := by
  induction up with
  | nil => rfl
  | cons kv rest ih =>
    by_cases hkvn : lowerEq kv.1 n = true
    · have hkeep : dropHeaderName kv.1 = false := by
        rw [lowerEq_iff] at hkvn
        rw [dropHeaderName_congr kv.1 n hkvn]
        exact hn
      simp [List.filter_cons, hkeep, getHeaderCI, List.find?_cons_of_pos, hkvn]
    · have hkvn0 : lowerEq kv.1 n = false := by simpa using hkvn
      by_cases hkeep : dropHeaderName kv.1 = true
      · simpa [List.filter_cons, hkeep, getHeaderCI,
          List.find?_cons_of_neg, hkvn0] using ih
      · have hkeep0 : dropHeaderName kv.1 = false := by simpa using hkeep
        simpa [List.filter_cons, hkeep0, getHeaderCI,
          List.find?_cons_of_neg, hkvn0] using ih

theorem getHeaderCI_filter_drop (up : List (String × String)) (n : String)
    (hn : dropHeaderName n = true) :
    getHeaderCI (up.filter (fun kv => !dropHeaderName kv.1)) n = none := by
  rw [getHeaderCI]
  rw [List.find?_eq_none.mpr]
  · rfl
  · intro kv hkv
    have hkeep : (!dropHeaderName kv.1) = true := (List.mem_filter.mp hkv).2
    intro hkvn
    have heq : strToLower kv.1 = strToLower n := (lowerEq_iff _ _).mp hkvn
    rw [dropHeaderName_congr kv.1 n heq, hn] at hkeep
    simp at hkeep

/-! ## Claim C8 — header relay policy -/

/-- Claim C8: for every `/proxy` response (upstream header lists have
distinct case-insensitive names, as fetch `Headers` guarantees), the relay
loop keeps exactly the upstream headers whose name is none of the
hop-by-hop or framing-control names, unchanged and with case preserved and
in order; and the headers the client receives never contain any of those
names, whatever the `Location` handling did afterwards. -/
theorem header_relay_policy (upH : List (String × String))
    (hnodup : (upH.map (fun kv => strToLower kv.1)).Nodup) :
    relayLoop upH = upH.filter (fun kv => !dropHeaderName kv.1) ∧
    (∀ (resolve : String → String → Option String) (targetUrl n : String),
      dropHeaderName n = true →
      getHeaderCI (proxyResponseHeaders resolve targetUrl upH) n = none) := by
  have hfilter := relayLoop_eq_filter upH hnodup
  refine ⟨hfilter, ?_⟩
  intro resolve targetUrl n hn
  have hrelay : getHeaderCI (relayLoop upH) n = none := by
    rw [hfilter]
    exact getHeaderCI_filter_drop upH n hn
  have hLocn : lowerEq "Location" n = false := by
    rw [lowerEq_false_iff]
    intro hcontra
    have : dropHeaderName "Location" = dropHeaderName n :=
      dropHeaderName_congr _ _ hcontra
    rw [hn] at this
    have hLoc : dropHeaderName "Location" = false := by decide
    rw [hLoc] at this
    exact Bool.false_ne_true this
  unfold proxyResponseHeaders
  cases hloc : getHeaderCI upH "location" with
  | none => simpa using hrelay
  | some loc =>
    by_cases hemp : loc = ""
    · simpa [hemp] using hrelay
    · cases habs : resolve targetUrl loc with
      | none => simpa [hemp, habs] using hrelay
      | some abs =>
        simp only [habs, if_neg hemp]
        rw [getHeaderCI_setHeader_ne _ _ _ _ hLocn]
        exact hrelay

theorem header_relay_policy_witness :
    relayLoop [("Content-Type", "text/html"), ("Transfer-Encoding", "chunked"),
        ("X-Frame-Options", "DENY"), ("ETag", "abc")] =
      [("Content-Type", "text/html"), ("ETag", "abc")] ∧
    getHeaderCI (proxyResponseHeaders resolveModel "http://example.com/"
      [("Content-Type", "text/html"), ("Transfer-Encoding", "chunked"),
       ("X-Frame-Options", "DENY"), ("ETag", "abc")]) "Upgrade" = none := by
  constructor
  · exact ((header_relay_policy _ (by decide)).1).trans (by decide)
  · exact (header_relay_policy _ (by decide)).2 resolveModel
      "http://example.com/" "Upgrade" (by decide)

/-! ## Claim C4 — Location handling (corrected) -/

/-- Claim C4 counterexample: the claim says a `Location` that fails to
resolve is dropped and never relayed raw.  In the code the general header
relay loop (src/server.js:131-137) has already relayed the raw `Location`
before the rewrite block (src/server.js:139-144) runs, and the rewrite
block only overwrites it when resolution succeeds.  With upstream header
`Location: http://[` (which `new URL` cannot parse even against a base, so
`absoluteUrl` yields `null`), the client receives the raw value — not no
header. -/
theorem location_drop_counterexample :
    getHeaderCI (proxyResponseHeaders resolveModel "http://example.com/page"
      [("Location", "http://[")]) "location" = some "http://[" := by decide

/-- Claim C4 amended: if the upstream `Location` resolves against the
target URL, the client receives a `Location` equal to the ProxyURL of the
resolved absolute URL; if it fails to resolve, the raw upstream `Location`
value is relayed unchanged (by the general relay loop), not dropped. -/
theorem location_rewrite_amended (resolve : String → String → Option String)
    (targetUrl : String) (upH : List (String × String)) (loc : String)
    (hnodup : (upH.map (fun kv => strToLower kv.1)).Nodup)
    (hloc : getHeaderCI upH "location" = some loc) (hne : loc ≠ "") :
    (∀ abs, resolve targetUrl loc = some abs →
      getHeaderCI (proxyResponseHeaders resolve targetUrl upH) "location" =
        some (toProxyUrl abs)) ∧
    (resolve targetUrl loc = none →
      getHeaderCI (proxyResponseHeaders resolve targetUrl upH) "location" =
        some loc) := by
  constructor
  · intro abs habs
    simp only [proxyResponseHeaders, hloc, if_neg hne, habs]
    exact getHeaderCI_setHeader_self _ _ _ _ (by decide)
  · intro hnone
    simp only [proxyResponseHeaders, hloc, if_neg hne, hnone]
    rw [relayLoop_eq_filter upH hnodup,
      getHeaderCI_filter_keep upH "location" (by decide)]
    exact hloc

theorem location_rewrite_amended_witness :
    getHeaderCI (proxyResponseHeaders resolveModel "http://example.com/"
      [("Location", "http://example.com/new")]) "location" =
      some (toProxyUrl "http://example.com/new") ∧
    getHeaderCI (proxyResponseHeaders resolveModel "http://example.com/"
      [("Server", "nginx"), ("Location", "http://[")]) "location" =
      some "http://[" :=
  ⟨(location_rewrite_amended resolveModel "http://example.com/"
      [("Location", "http://example.com/new")] "http://example.com/new"
      (by decide) (by decide) (by decide)).1 "http://example.com/new" (by decide),
   (location_rewrite_amended resolveModel "http://example.com/"
      [("Server", "nginx"), ("Location", "http://[")] "http://["
      (by decide) (by decide) (by decide)).2 (by decide)⟩

/-! ## Claim C5 — policy decision points (corrected) -/

/-- Claim C5 counterexample: the claim says `isAllowed` is invoked at
three call sites, including for every rewritten `Location` redirect
target, so that a policy-failing host is never produced as a relayed
redirect target.  The `Location` rewrite block (src/server.js:139-144)
contains no `isAllowed` call at all — `proxyResponseHeaders` does not even
take the rule lists — so a host failing the policy is produced (wrapped as
a ProxyURL) as the relayed redirect target: with `BLOCKLIST =
["blocked.example"]` the upstream redirect to `http://blocked.example/` is
rewritten and relayed, not suppressed. -/
theorem policy_callsites_counterexample :
    isAllowed ["blocked.example"] [] "blocked.example" = false ∧
    getHeaderCI (proxyResponseHeaders resolveModel "http://site.example/"
        [("Location", "http://blocked.example/")]) "location" =
      some "/proxy?url=http%3A%2F%2Fblocked.example%2F" := by
  constructor
  · decide
  · decide

/-- Claim C5 amended: `isAllowed` is invoked for the initial
`/proxy?url=` target (a failing host is answered 403 before any fetch)
and for every WebSocket upgrade target (a failing host has its socket
destroyed, never tunneled).  Rewritten `Location` redirect targets are
not policy-checked at rewrite time; instead every rewritten `Location` is
the ProxyURL of the resolved target, which routes back through `/proxy`,
where the policy is applied if and when the redirect is followed. -/
theorem policy_gate_amended :
    (∀ (bl al : List String) (mb : Nat) (parse : String → Option URLRec)
        (m : String) (bs : Nat) (t : String) (u : URLRec),
      parse t = some u → t ≠ "" →
      (u.protocol = "http:" ∨ u.protocol = "https:") →
      isAllowed bl al u.hostname = false →
      proxyEarly bl al mb parse (some t) m bs = .blocked) ∧
    (∀ (resolve : String → String → Option String)
        (targetUrl : String) (upH : List (String × String)) (loc abs : String),
      getHeaderCI upH "location" = some loc → loc ≠ "" →
      resolve targetUrl loc = some abs →
      getHeaderCI (proxyResponseHeaders resolve targetUrl upH) "location" =
        some (toProxyUrl abs) ∧
      (asciiStr abs = true → extractProxyParam (toProxyUrl abs) = some abs)) ∧
    (∀ (bl al : List String) (parse : String → Option URLRec)
        (t : String) (u : URLRec),
      t ≠ "" → parse t = some u →
      isAllowed bl al u.hostname = false →
      upgradeDecision bl al parse "/ws" (some t) = .destroyed) := by
  refine ⟨?_, ?_, ?_⟩
  · intro bl al mb parse m bs t u hparse ht hscheme hallow
    simp only [proxyEarly, hparse]
    rw [if_neg ht, if_neg (not_not_intro hscheme), if_pos hallow]
  · intro resolve targetUrl upH loc abs hloc hne habs
    constructor
    · simp only [proxyResponseHeaders, hloc, if_neg hne, habs]
      exact getHeaderCI_setHeader_self _ _ _ _ (by decide)
    · intro hascii
      obtain ⟨d⟩ := abs
      simp only [extractProxyParam, toProxyUrl, String.data_append]
      rw [dropPrefixCL_self]
      simp only [Option.map_some']
      rw [percentDecode_encode _ (asciiStr_mem ⟨d⟩ hascii)]
  · intro bl al parse t u ht hparse hallow
    simp only [upgradeDecision, hparse]
    rw [if_neg (not_not_intro rfl), if_neg ht, if_pos hallow]

theorem policy_gate_amended_witness :
    proxyEarly ["blocked.example"] [] 64
        (fun _ => some ⟨"http:", "blocked.example", "http://blocked.example"⟩)
        (some "http://blocked.example/") "GET" 0 = ProxyOutcome.blocked ∧
    upgradeDecision ["blocked.example"] []
        (fun _ => some ⟨"ws:", "blocked.example", "ws://blocked.example"⟩)
        "/ws" (some "ws://blocked.example/") = UpgradeOutcome.destroyed :=
  ⟨policy_gate_amended.1 ["blocked.example"] [] 64 _ "GET" 0
      "http://blocked.example/" ⟨"http:", "blocked.example", "http://blocked.example"⟩
      rfl (by decide) (Or.inl rfl) (by decide),
   policy_gate_amended.2.2 ["blocked.example"] [] _
      "ws://blocked.example/" ⟨"ws:", "blocked.example", "ws://blocked.example"⟩
      (by decide) rfl (by decide)⟩

/-! ## Claim C6 — unresolvable attribute values left unchanged -/

/-- Claim C6: in every HTML-rewrite attribute loop (anchors, resources,
forms), an attribute whose value fails URL resolution (`absoluteUrl`
returned `null`) is left exactly as it was in the upstream document —
resolution failure yields `null`, and `null` means no rewrite. -/
theorem unresolvable_attrs_unchanged (resolve : String → String → Option String)
    (targetUrl : String) (attrs : List (String × String)) :
    (∀ href, getAttr attrs "href" = some href → resolve targetUrl href = none →
      rewriteAnchorAttrs resolve targetUrl attrs = attrs) ∧
    (∀ a v, getAttr attrs a = some v → resolve targetUrl v = none →
      rewriteResourceAttr resolve targetUrl attrs a = attrs) ∧
    (∀ action, getAttr attrs "action" = some action →
      resolve targetUrl action = none →
      rewriteFormAttrs resolve targetUrl attrs = attrs) := by
  refine ⟨?_, ?_, ?_⟩
  · intro href h1 h2
    simp [rewriteAnchorAttrs, h1, h2]
  · intro a v h1 h2
    by_cases hv : v = ""
    · simp [rewriteResourceAttr, h1, hv]
    · simp [rewriteResourceAttr, h1, hv, h2]
  · intro action h1 h2
    simp [rewriteFormAttrs, h1, h2]

theorem unresolvable_attrs_unchanged_witness :
    rewriteAnchorAttrs resolveModel "http://example.com/"
      [("href", "http://["), ("class", "nav")] =
      [("href", "http://["), ("class", "nav")] :=
  (unresolvable_attrs_unchanged resolveModel "http://example.com/"
    [("href", "http://["), ("class", "nav")]).1 "http://[" (by decide) (by decide)

/-! ## Claim C7 — body size guard -/

/-- Claim C7: a `/proxy` request (one that has passed the URL, scheme and
policy checks, which precede the body read) with a method other than
GET/HEAD whose inbound body exceeds `MAX_BODY_MB` megabytes is answered
413, and the upstream fetch is never issued for it. -/
theorem payload_guard_413 (bl al : List String) (mb : Nat)
    (parse : String → Option URLRec) (t : String) (u : URLRec)
    (m : String) (bs : Nat)
    (ht : t ≠ "") (hparse : parse t = some u)
    (hscheme : u.protocol = "http:" ∨ u.protocol = "https:")
    (hallow : isAllowed bl al u.hostname = true)
    (hm1 : m ≠ "GET") (hm2 : m ≠ "HEAD")
    (hbig : mb * 1024 * 1024 < bs) :
    proxyEarly bl al mb parse (some t) m bs = .payloadTooLarge ∧
    ∀ u', proxyEarly bl al mb parse (some t) m bs ≠ .fetchIssued u' := by
  have hmain : proxyEarly bl al mb parse (some t) m bs = .payloadTooLarge := by
    simp only [proxyEarly, hparse]
    rw [if_neg ht, if_neg (not_not_intro hscheme),
      if_neg (by simp [hallow]), if_pos ⟨hm1, hm2, hbig⟩]
  refine ⟨hmain, ?_⟩
  intro u'
  rw [hmain]
  intro hcontra
  exact ProxyOutcome.noConfusion hcontra

theorem payload_guard_413_witness :
    proxyEarly [] [] 64
        (fun _ => some ⟨"http:", "example.com", "http://example.com"⟩)
        (some "http://example.com/upload") "POST" (64 * 1024 * 1024 + 1) =
      ProxyOutcome.payloadTooLarge :=
  (payload_guard_413 [] [] 64 _ "http://example.com/upload"
    ⟨"http:", "example.com", "http://example.com"⟩ "POST" (64 * 1024 * 1024 + 1)
    (by decide) rfl (Or.inl rfl) (by decide) (by decide) (by decide) (by decide)).1

/-! ## Claim C9 — response classification -/

/-- Claim C9: the Rewrite Path is selected exactly when the upstream
content type starts with `text/html` and rewriting is enabled; in every
other case the Streaming Path is selected, and in particular with
rewriting disabled an HTML response body is delivered to the client
unmodified (no `<base>` injection, no attribute rewriting). -/
theorem response_classifier_spec (er : Bool) (ct : String)
    (rewriteFn : String → String) (body : String) :
    (classifyResponse er ct = .rewrite ↔
      (strStartsWith ct "text/html" = true ∧ er = true)) ∧
    (classifyResponse er ct = .streaming ↔
      ¬(strStartsWith ct "text/html" = true ∧ er = true)) ∧
    (er = false → respondBody er ct rewriteFn body = body) := by
  have hclass : classifyResponse er ct = .rewrite ↔
      (strStartsWith ct "text/html" = true ∧ er = true) := by
    unfold classifyResponse
    cases hh : strStartsWith ct "text/html" <;> cases er <;> simp
  refine ⟨hclass, ?_, ?_⟩
  · constructor
    · intro hs hcontra
      rw [hclass.mpr hcontra] at hs
      exact RespPath.noConfusion hs
    · intro hnot
      cases hcl : classifyResponse er ct with
      | streaming => rfl
      | rewrite => exact absurd (hclass.mp hcl) hnot
  · intro her
    subst her
    simp [respondBody, classifyResponse]

theorem response_classifier_spec_witness :
    respondBody false "text/html; charset=utf-8" (fun _ => "rewritten")
      "<html>original</html>" = "<html>original</html>" :=
  (response_classifier_spec false "text/html; charset=utf-8"
    (fun _ => "rewritten") "<html>original</html>").2.2 rfl

/-! ## Claim C10 — WebSocket upgrade never checks the scheme -/

/-- Claim C10 (implicit): the upgrade handler validates only that the
`url` parameter parses and that its hostname passes `isAllowed`; it never
inspects the URL's scheme, so any parsed URL with an allowed host — with
an arbitrary scheme such as `ftp:` or `ws:` — is tunneled to its origin,
whereas the `/proxy` endpoint answers 400 for any scheme other than
http/https. -/
theorem upgrade_scheme_unchecked :
    (∀ (bl al : List String) (parse : String → Option URLRec)
        (t : String) (u : URLRec),
      t ≠ "" → parse t = some u →
      isAllowed bl al u.hostname = true →
      upgradeDecision bl al parse "/ws" (some t) = .tunneled u.origin) ∧
    (∀ (bl al : List String) (mb : Nat) (parse : String → Option URLRec)
        (t : String) (u : URLRec) (m : String) (bs : Nat),
      t ≠ "" → parse t = some u →
      ¬(u.protocol = "http:" ∨ u.protocol = "https:") →
      proxyEarly bl al mb parse (some t) m bs = .unsupportedScheme) := by
  constructor
  · intro bl al parse t u ht hparse hallow
    simp only [upgradeDecision, hparse]
    rw [if_neg (not_not_intro rfl), if_neg ht, if_neg (by simp [hallow])]
  · intro bl al mb parse t u m bs ht hparse hscheme
    simp only [proxyEarly, hparse]
    rw [if_neg ht, if_pos hscheme]

theorem upgrade_scheme_unchecked_witness :
    upgradeDecision [] []
        (fun _ => some ⟨"ftp:", "files.example", "ftp://files.example"⟩)
        "/ws" (some "ftp://files.example/") =
      UpgradeOutcome.tunneled "ftp://files.example" ∧
    proxyEarly [] [] 64
        (fun _ => some ⟨"ftp:", "files.example", "ftp://files.example"⟩)
        (some "ftp://files.example/") "GET" 0 = ProxyOutcome.unsupportedScheme :=
  ⟨upgrade_scheme_unchecked.1 [] [] _ "ftp://files.example/"
      ⟨"ftp:", "files.example", "ftp://files.example"⟩ (by decide) rfl (by decide),
   upgrade_scheme_unchecked.2 [] [] 64 _ "ftp://files.example/"
      ⟨"ftp:", "files.example", "ftp://files.example"⟩ "GET" 0
      (by decide) rfl (by decide)⟩
